import Mathlib

/-!
Verification of the type-system layer of `evenco/go-graphql`
(`validator.go` in this repository).  Go code is shallowly embedded:
pure Go functions become Lean functions, Go `interface{}`-typed dynamic
values become the inductive `GoValue`, nilable pointers and functions
become `Option`, Go maps (whose iteration order is unspecified) become
association lists quantified over all orders, and errors become
`Option ErrMsg` carrying the exact formatted message text.
-/

namespace GoGraphQL

/-- Errors: `gqlerrors.NewFormattedError(ctx, msg)` wraps a message string;
the type layer only ever constructs and forwards them, so an error is
modelled by its message. -/
abbrev ErrMsg := String

/-- Model of Go `interface{}` runtime values as they are used by this layer
(enum internal values, scalar values): strings, integers, booleans and the
nil interface value. -/
inductive GoValue where
  | str (s : String)
  | int (n : Int)
  | bool (b : Bool)
  | null
  deriving DecidableEq, Repr

/-! ## Name validation (`assertValidName`, validator.go:1314-1321) -/

/-- Character class `[_a-zA-Z]` of `NAME_REGEXP`. -/
def isNameStartChar (c : Char) : Bool :=
  c == '_' || (decide ('a' ≤ c) && decide (c ≤ 'z')) || (decide ('A' ≤ c) && decide (c ≤ 'Z'))

/-- Character class `[_a-zA-Z0-9]` of `NAME_REGEXP`. -/
def isNameTailChar (c : Char) : Bool :=
  isNameStartChar c || (decide ('0' ≤ c) && decide (c ≤ '9'))

/-- `NAME_REGEXP.MatchString(name)` for the anchored pattern
`^[_a-zA-Z][_a-zA-Z0-9]*$`: the whole string is one start character
followed by tail characters. -/
def nameRegexpMatch (s : String) : Bool :=
  match s.data with
  | [] => false
  | c :: cs => isNameStartChar c && cs.all isNameTailChar

/-- `assertValidName` (validator.go:1316-1321): `nil` on a match, otherwise
the formatted error naming the offending string. -/
def assertValidName (name : String) : Option ErrMsg :=
  if nameRegexpMatch name then none
  else some ("Names must match /^[_a-zA-Z][_a-zA-Z0-9]*$/ but \"" ++ name ++ "\" does not.")

/-! ## The `Type` interface view and the wrapper types

`GetNamed`, `NewList`, `NewNonNull` and the field-map builders consume
other types only through the `Type` interface (`GetError`, `String`) and
through the `*List` / `*NonNull` type assertions.  `GType` therefore
mirrors the eight type variants with each non-wrapper variant reduced to
this interface view (its name and its construction error); the full
per-variant data and constructors are modelled separately below. -/

inductive GType where
  | scalar (name : String) (err : Option ErrMsg)
  | object (name : String) (err : Option ErrMsg)
  | iface (name : String) (err : Option ErrMsg)
  | union (name : String) (err : Option ErrMsg)
  | enum (name : String) (err : Option ErrMsg)
  | inputObject (name : String) (err : Option ErrMsg)
  | list (ofType : Option GType) (err : Option ErrMsg)
  | nonNull (ofType : Option GType) (err : Option ErrMsg)

/-- `GetError()` of each variant (each returns its `err` field). -/
def GType.GetError : GType → Option ErrMsg
  | .scalar _ e => e
  | .object _ e => e
  | .iface _ e => e
  | .union _ e => e
  | .enum _ e => e
  | .inputObject _ e => e
  | .list _ e => e
  | .nonNull _ e => e

/-- `String()` of each variant: named types print their name;
`List.String` prints `[inner]` when `OfType` is non-nil and `""`
otherwise; `NonNull.String` prints `inner!` via `GetName` when `OfType`
is non-nil and `""` otherwise (validator.go:1250-1255, 1298-1309). -/
def GType.str : GType → String
  | .scalar n _ => n
  | .object n _ => n
  | .iface n _ => n
  | .union n _ => n
  | .enum n _ => n
  | .inputObject n _ => n
  | .list t _ =>
    match t with
    | some t => "[" ++ t.str ++ "]"
    | none => ""
  | .nonNull t _ =>
    match t with
    | some t => t.str ++ "!"
    | none => ""

/-- Go `fmt` `%v` applied to a possibly-nil `Type` interface value:
`<nil>` for the nil interface, otherwise the value's `String()`. -/
def formatType : Option GType → String
  | none => "<nil>"
  | some t => t.str

/-- `GetNamed` (validator.go:165-179): repeatedly strip `*List` and
`*NonNull` wrappers by following `OfType` (which may be nil on broken
wrappers, ending the loop with nil). -/
def GetNamed : Option GType → Option GType
  | some (.list ofType _) => GetNamed ofType
  | some (.nonNull ofType _) => GetNamed ofType
  | t => t

/-- `NewList` (validator.go:1233-1243): nil inner type is a construction
error recorded on the value; otherwise the wrapper holds the inner type. -/
def NewList (ofType : Option GType) : GType :=
  match ofType with
  | none => .list none (some ("Can only create List of a Type but got: " ++ formatType none ++ "."))
  | some t => .list (some t) none

/-- `NewNonNull` (validator.go:1287-1297): nil inner type or an inner
`*NonNull` is a construction error recorded on the value. -/
def NewNonNull (ofType : Option GType) : GType :=
  let isOfTypeNonNull : Bool :=
    match ofType with
    | some (.nonNull _ _) => true
    | _ => false
  let isNil : Bool :=
    match ofType with
    | none => true
    | _ => false
  if isNil || isOfTypeNonNull then
    .nonNull none (some ("Can only create NonNull of a Nullable Type but got: " ++ formatType ofType ++ "."))
  else
    .nonNull ofType none

/-- A wrapper application step, for stating `GetNamed` over arbitrary
finite nestings of the two wrapper variants. -/
inductive Wrapper where
  | list
  | nonNull
  deriving DecidableEq, Repr

/-- Apply a nesting of wrappers (outermost first) around a type. -/
def applyWrappers : List Wrapper → GType → GType
  | [], t => t
  | .list :: ws, t => .list (some (applyWrappers ws t)) none
  | .nonNull :: ws, t => .nonNull (some (applyWrappers ws t)) none

/-- The two modifier variants, as tested by the `*List` / `*NonNull`
type assertions in `GetNamed`. -/
def GType.isWrapper : GType → Bool
  | .list _ _ => true
  | .nonNull _ _ => true
  | _ => false

/-! ## Go maps as association lists

A Go `map` presents each key exactly once, in an unspecified iteration
order; an association list with pairwise-distinct keys, quantified over
all orders, models it exactly.  `mapInsert` is Go's `m[k] = v`
(replace-or-append) and `mapLookup` is Go's `m[k]` read. -/

def mapInsert {κ α : Type} [DecidableEq κ] (m : List (κ × α)) (k : κ) (v : α) : List (κ × α) :=
  match m with
  | [] => [(k, v)]
  | (k', v') :: rest => if k' = k then (k, v) :: rest else (k', v') :: mapInsert rest k v

def mapLookup {κ α : Type} [DecidableEq κ] (m : List (κ × α)) (k : κ) : Option α :=
  match m with
  | [] => none
  | (k', v) :: rest => if k' = k then some v else mapLookup rest k

/-! ## Scalar (validator.go:198-276) -/

/-- An AST value node, consumed only by `ParseLiteral` hooks.  The enum
literal node is the one shape this layer inspects (`*ast.EnumValue`);
every other node kind is collapsed into `other`. -/
inductive AstValue where
  | enumValue (value : String)
  | other
  deriving DecidableEq, Repr

/-- `ScalarConfig` (validator.go:208-214); the three function fields are
nilable function values. -/
structure ScalarConfig where
  name : String
  description : String := ""
  serialize : Option (GoValue → GoValue) := none
  parseValue : Option (GoValue → GoValue) := none
  parseLiteral : Option (AstValue → GoValue) := none

/-- The zero value of `ScalarConfig`, held by a freshly allocated
`&Scalar{}` before `st.scalarConfig = config` runs. -/
def ScalarConfig.zero : ScalarConfig := { name := "" }

/-- `Scalar` (validator.go:198-204). -/
structure Scalar where
  name : String
  description : String
  scalarConfig : ScalarConfig
  err : Option ErrMsg

/-- `NewScalar` (validator.go:216-245), branch for branch: empty name,
invalid name, missing serialize, then an error if `ParseValue` or
`ParseLiteral` is nil (note: the `||` fires even when both are nil),
and only then the config is stored. -/
def NewScalar (config : ScalarConfig) : Scalar :=
  if config.name = "" then
    { name := "", description := "", scalarConfig := ScalarConfig.zero,
      err := some "Type must be named." }
  else
    match assertValidName config.name with
    | some e =>
      { name := "", description := "", scalarConfig := ScalarConfig.zero, err := some e }
    | none =>
      match config.serialize with
      | none =>
        { name := config.name, description := config.description,
          scalarConfig := ScalarConfig.zero,
          err := some (config.name ++ " must provide \"serialize\" function. If this custom Scalar is also used as an input type, ensure \"parseValue\" and \"parseLiteral\" functions are also provided.") }
      | some _ =>
        match config.parseValue, config.parseLiteral with
        | some _, some _ =>
          { name := config.name, description := config.description,
            scalarConfig := config, err := none }
        | _, _ =>
          { name := config.name, description := config.description,
            scalarConfig := ScalarConfig.zero,
            err := some (config.name ++ " must provide both \"parseValue\" and \"parseLiteral\" functions.") }

def Scalar.GetName (st : Scalar) : String := st.name

def Scalar.GetDescription (st : Scalar) : String := st.description

def Scalar.GetError (st : Scalar) : Option ErrMsg := st.err

/-- `(*Scalar).Serialize` (validator.go:246-251): identity when the
stored config has no serialize function. -/
def Scalar.Serialize (st : Scalar) (value : GoValue) : GoValue :=
  match st.scalarConfig.serialize with
  | none => value
  | some f => f value

/-- `(*Scalar).ParseValue` (validator.go:252-257). -/
def Scalar.ParseValue (st : Scalar) (value : GoValue) : GoValue :=
  match st.scalarConfig.parseValue with
  | none => value
  | some f => f value

/-- `(*Scalar).ParseLiteral` (validator.go:258-263): nil when unset. -/
def Scalar.ParseLiteral (st : Scalar) (valueAST : AstValue) : GoValue :=
  match st.scalarConfig.parseLiteral with
  | none => .null
  | some f => f valueAST

/-! ## The shared field-map builder `defineFieldMap` (validator.go:439-499)

Field and argument types are consumed through the `Type` interface only
(`GetError`, nil tests), hence `Option GType`.  The owner (`ttype Named`)
is consumed only through `%v` formatting, i.e. its `String()`, hence a
string parameter.  `FieldConfig.Resolve` is copied verbatim into the
definition and never inspected by this layer, so it is elided. -/

structure ArgumentConfig where
  type : Option GType
  defaultValue : GoValue := .null
  description : String := ""

structure FieldConfig where
  name : String := ""
  type : Option GType
  args : List (String × Option ArgumentConfig) := []
  deprecationReason : String := ""
  description : String := ""

structure Argument where
  name : String
  type : Option GType
  defaultValue : GoValue := .null
  description : String := ""

structure FieldDefinition where
  name : String
  description : String
  type : GType
  args : List Argument
  deprecationReason : String

/-- Go's `<` / `<=` on strings: bytewise lexicographic order, here over
the character sequences (the names ordered by `sort.Sort` are ASCII). -/
def charListLe : List Char → List Char → Bool
  | [], _ => true
  | _ :: _, [] => false
  | a :: as, b :: bs =>
    if a < b then true
    else if b < a then false
    else charListLe as bs

def strLe (a b : String) : Bool := charListLe a.data b.data

/-- Insertion into a name-sorted argument list; `sortArgs` models
`sort.Sort(ArgumentList)` with `Less` comparing `Name` (validator.go:
490-492, 613-615). -/
def insertArgSorted (a : Argument) : List Argument → List Argument
  | [] => [a]
  | b :: bs => if strLe a.name b.name then a :: b :: bs else b :: insertArgSorted a bs

def sortArgs (l : List Argument) : List Argument :=
  l.foldr insertArgSorted []

/-- The inner argument loop of `defineFieldMap` (validator.go:468-486):
invalid argument name, nil argument config and nil argument type each
abort with an error; otherwise arguments accumulate in iteration order. -/
def buildArgs (ttypeStr fieldName : String) :
    List (String × Option ArgumentConfig) → List Argument → Except ErrMsg (List Argument)
  | [], acc => .ok acc
  | (argName, arg) :: rest, acc =>
    match assertValidName argName with
    | some e => .error e
    | none =>
      match arg with
      | none => .error (ttypeStr ++ "." ++ fieldName ++ " args must be an object with argument names as keys.")
      | some arg =>
        match arg.type with
        | none => .error (ttypeStr ++ "." ++ fieldName ++ "(" ++ argName ++ ":) argument type must be Input Type but got: <nil>.")
        | some _ =>
          buildArgs ttypeStr fieldName rest
            (acc ++ [{ name := argName, type := arg.type,
                       defaultValue := arg.defaultValue, description := arg.description }])

/-- The per-field loop of `defineFieldMap` (validator.go:447-497): a nil
field config is skipped (`continue`); a nil field type, a field type
carrying its own error, an invalid field name, or a bad argument each
return immediately with the partial map built so far; otherwise the
field definition (arguments sorted by name) is stored under its name. -/
def defineFieldMapLoop (ttypeStr : String) :
    List (String × Option FieldConfig) → List (String × FieldDefinition) →
    List (String × FieldDefinition) × Option ErrMsg
  | [], acc => (acc, none)
  | (fieldName, field) :: rest, acc =>
    match field with
    | none => defineFieldMapLoop ttypeStr rest acc
    | some field =>
      match field.type with
      | none => (acc, some (ttypeStr ++ "." ++ fieldName ++ " field type must be Output Type but got: <nil>."))
      | some ftype =>
        match ftype.GetError with
        | some e => (acc, some e)
        | none =>
          match assertValidName fieldName with
          | some e => (acc, some e)
          | none =>
            match buildArgs ttypeStr fieldName field.args [] with
            | .error e => (acc, some e)
            | .ok args =>
              defineFieldMapLoop ttypeStr rest
                (mapInsert acc fieldName
                  { name := fieldName, description := field.description, type := ftype,
                    args := sortArgs args, deprecationReason := field.deprecationReason })

/-- `defineFieldMap` (validator.go:439-499): an empty config map is an
error; otherwise run the per-field loop. -/
def defineFieldMap (ttypeStr : String) (fields : List (String × Option FieldConfig)) :
    List (String × FieldDefinition) × Option ErrMsg :=
  if fields.isEmpty then
    ([], some (ttypeStr ++ " fields must be an object with field names as keys or a function which return such an object."))
  else
    defineFieldMapLoop ttypeStr fields []

/-! ## InputObject (validator.go:1077-1207) -/

structure InputObjectFieldConfig where
  type : Option GType
  defaultValue : GoValue := .null
  description : String := ""

structure InputObjectField where
  name : String
  type : Option GType
  defaultValue : GoValue := .null
  description : String := ""

/-- `InputObjectConfig.Fields` is an `interface{}` holding either a
direct field map, a thunk, or anything else (including nil), which the
type switch in `defineFieldMap` leaves as a nil map
(validator.go:1157-1164). -/
inductive InputFieldsConfig where
  | fieldMap (m : List (String × Option InputObjectFieldConfig))
  | thunk (f : Unit → List (String × Option InputObjectFieldConfig))
  | other

structure InputObjectConfig where
  name : String
  fields : InputFieldsConfig := .other
  description : String := ""

/-- The field list produced by the type switch of
`(*InputObject).defineFieldMap` (validator.go:1158-1164). -/
def InputObjectConfig.fieldList (config : InputObjectConfig) :
    List (String × Option InputObjectFieldConfig) :=
  match config.fields with
  | .fieldMap m => m
  | .thunk f => f ()
  | .other => []

/-- The per-field loop of `(*InputObject).defineFieldMap`
(validator.go:1172-1190): a nil field config is skipped (`continue`),
an invalid field name is skipped (`continue`), but a nil field type
returns immediately with the partial map and records an error. -/
def inputFieldLoop (gtStr : String) :
    List (String × Option InputObjectFieldConfig) → List (String × InputObjectField) →
    List (String × InputObjectField) × Option ErrMsg
  | [], acc => (acc, none)
  | (fieldName, fieldConfig) :: rest, acc =>
    match fieldConfig with
    | none => inputFieldLoop gtStr rest acc
    | some fieldConfig =>
      match assertValidName fieldName with
      | some _ => inputFieldLoop gtStr rest acc
      | none =>
        match fieldConfig.type with
        | none => (acc, some (gtStr ++ "." ++ fieldName ++ " field type must be Input Type but got: <nil>."))
        | some _ =>
          inputFieldLoop gtStr rest
            (mapInsert acc fieldName
              { name := fieldName, type := fieldConfig.type,
                description := fieldConfig.description,
                defaultValue := fieldConfig.defaultValue })

/-- `(*InputObject).defineFieldMap` (validator.go:1157-1192) as a pure
function of the owner's `String()` and the switched field list:
an empty list is an error with an empty result map. -/
def inputObjectDefineFieldMap (gtStr : String)
    (fieldMap : List (String × Option InputObjectFieldConfig)) :
    List (String × InputObjectField) × Option ErrMsg :=
  if fieldMap.isEmpty then
    ([], some (gtStr ++ " fields must be an object with field names as keys or a function which return such an object."))
  else
    inputFieldLoop gtStr fieldMap []

structure InputObject where
  name : String
  description : String
  fields : List (String × InputObjectField)
  err : Option ErrMsg

/-- `NewInputObject` (validator.go:1142-1155): only an *empty* name is
rejected (no `assertValidName` call, unlike the other constructors);
then the field map is built eagerly, its error (if any) landing on the
instance. -/
def NewInputObject (config : InputObjectConfig) : InputObject :=
  if config.name = "" then
    { name := "", description := "", fields := [], err := some "Type must be named." }
  else
    let built := inputObjectDefineFieldMap config.name config.fieldList
    { name := config.name, description := config.description,
      fields := built.1, err := built.2 }

def InputObject.GetFields (gt : InputObject) : List (String × InputObjectField) := gt.fields

def InputObject.GetName (gt : InputObject) : String := gt.name

def InputObject.GetDescription (gt : InputObject) : String := gt.description

def InputObject.GetError (gt : InputObject) : Option ErrMsg := gt.err

/-! ## Enum (validator.go:888-1055) -/

structure EnumValueConfig where
  value : GoValue := .null
  deprecationReason : String := ""
  description : String := ""
  deriving DecidableEq, Repr

structure EnumConfig where
  name : String
  values : List (String × Option EnumValueConfig) := []
  description : String := ""
  deriving DecidableEq, Repr

structure EnumValueDefinition where
  name : String
  value : GoValue
  deprecationReason : String := ""
  description : String := ""
  deriving DecidableEq, Repr

structure Enum where
  name : String
  description : String
  values : List EnumValueDefinition
  err : Option ErrMsg
  deriving DecidableEq, Repr

/-- Insertion into a name-sorted value list; `sortEnumValues` models
`sort.Sort(EnumValueDefinitionList)` with `Less` comparing `Name`
(validator.go:929-931, 986-988). -/
def insertEnumValueSorted (a : EnumValueDefinition) :
    List EnumValueDefinition → List EnumValueDefinition
  | [] => [a]
  | b :: bs => if strLe a.name b.name then a :: b :: bs else b :: insertEnumValueSorted a bs

def sortEnumValues (l : List EnumValueDefinition) : List EnumValueDefinition :=
  l.foldr insertEnumValueSorted []

/-- The per-value loop of `defineEnumValues` (validator.go:964-982):
a nil value config or an invalid value name aborts with an error; a nil
internal value defaults to the value's own name. -/
def enumValueLoop (gtName : String) :
    List (String × Option EnumValueConfig) → List EnumValueDefinition →
    List EnumValueDefinition × Option ErrMsg
  | [], acc => (acc, none)
  | (valueName, valueConfig) :: rest, acc =>
    match valueConfig with
    | none =>
      (acc, some (gtName ++ "." ++ valueName ++ " must refer to an object with a \"value\" key representing an internal value but got: <nil>."))
    | some valueConfig =>
      match assertValidName valueName with
      | some e => (acc, some e)
      | none =>
        let v : GoValue := if valueConfig.value = .null then .str valueName else valueConfig.value
        enumValueLoop gtName rest
          (acc ++ [{ name := valueName, value := v,
                     deprecationReason := valueConfig.deprecationReason,
                     description := valueConfig.description }])

/-- `(*Enum).defineEnumValues` (validator.go:957-993): empty value map is
an error; otherwise run the loop and sort the result by name. -/
def defineEnumValues (gtName : String) (valueMap : List (String × Option EnumValueConfig)) :
    List EnumValueDefinition × Option ErrMsg :=
  if valueMap.isEmpty then
    ([], some (gtName ++ " values must be an object with value names as keys."))
  else
    let built := enumValueLoop gtName valueMap []
    match built.2 with
    | some e => (built.1, some e)
    | none => (sortEnumValues built.1, none)

/-- `NewEnum` (validator.go:937-956): `assertValidName` on the name (no
separate empty check — the regexp rejects the empty string), then value
definitions are built eagerly; `gt.values` is assigned even when value
building errs. -/
def NewEnum (config : EnumConfig) : Enum :=
  match assertValidName config.name with
  | some e => { name := "", description := "", values := [], err := some e }
  | none =>
    let built := defineEnumValues config.name config.values
    { name := config.name, description := config.description,
      values := built.1, err := built.2 }

def Enum.GetValues (gt : Enum) : List EnumValueDefinition := gt.values

/-- `(*Enum).getValueLookup` (validator.go:1033-1043): a map keyed by
each definition's internal value (later duplicates overwrite). -/
def Enum.getValueLookup (gt : Enum) : List (GoValue × EnumValueDefinition) :=
  gt.GetValues.foldl (fun acc v => mapInsert acc v.value v) []

/-- `(*Enum).getNameLookup` (validator.go:1045-1055): a map keyed by
each definition's name. -/
def Enum.getNameLookup (gt : Enum) : List (String × EnumValueDefinition) :=
  gt.GetValues.foldl (fun acc v => mapInsert acc v.name v) []

/-- `(*Enum).Serialize` (validator.go:997-1002): reverse lookup of the
internal value, yielding the value's name, or nil. -/
def Enum.Serialize (gt : Enum) (value : GoValue) : GoValue :=
  match mapLookup gt.getValueLookup value with
  | some enumValue => .str enumValue.name
  | none => .null

/-- `(*Enum).ParseValue` (validator.go:1003-1012): nil unless the input
is a string naming a declared value, in which case its internal value. -/
def Enum.ParseValue (gt : Enum) (value : GoValue) : GoValue :=
  match value with
  | .str valueStr =>
    match mapLookup gt.getNameLookup valueStr with
    | some enumValue => enumValue.value
    | none => .null
  | _ => .null

/-- `(*Enum).ParseLiteral` (validator.go:1013-1020): name lookup on an
enum-literal AST node, nil on any other node kind. -/
def Enum.ParseLiteral (gt : Enum) (valueAST : AstValue) : GoValue :=
  match valueAST with
  | .enumValue v =>
    match mapLookup gt.getNameLookup v with
    | some enumValue => enumValue.value
    | none => .null
  | .other => .null

def Enum.GetName (gt : Enum) : String := gt.name

/-- `(*Enum).GetDescription` (validator.go:1024-1026) returns the empty
string unconditionally. -/
def Enum.GetDescription (_ : Enum) : String := ""

def Enum.GetError (gt : Enum) : Option ErrMsg := gt.err

/-! ## Object, Interface, Union and abstract-type resolution
(validator.go:315-437, 639-865)

`ResolveInfo` (validator.go:512-522) is an executor-supplied bundle the
type layer never inspects — it only forwards it to host-supplied
`isTypeOf` / `resolveType` functions — so it is modelled by a record of
the representative executor data.  `Object` and `Interface` refer to
each other (`Object.interfaces`, `Interface.ResolveType` returning
`*Object`), hence the mutual inductive.  Go's zero values make every
field present; nilable functions stay `Option`. -/

structure ResolveInfo where
  fieldName : String := ""
  rootValue : GoValue := .null

mutual

/-- `Object` (validator.go:315-325) restricted to the fields its
constructor and the abstract-resolution algorithm read: `Name`,
`Description`, `IsTypeOf`, the resolved `interfaces`, `err`.  The raw
`typeConfig` field map is lazy and untouched by `NewObject`, so it is
not carried. -/
inductive GObj : Type where
  | mk (name : String) (description : String)
       (isTypeOf : Option (GoValue → ResolveInfo → Bool))
       (interfaces : List GIface) (err : Option ErrMsg) : GObj

/-- `Interface` (validator.go:639-650) restricted likewise: `Name`,
`ResolveType`, the `implementations` registry populated by Object
construction, `err`. -/
inductive GIface : Type where
  | mk (name : String)
       (resolveType : Option (GoValue → ResolveInfo → Option GObj))
       (implementations : List GObj) (err : Option ErrMsg) : GIface

end

/-- `ResolveTypeFn` (validator.go:657). -/
abbrev ResolveTypeFn := GoValue → ResolveInfo → Option GObj

/-- `IsTypeOfFn` (validator.go:327). -/
abbrev IsTypeOfFn := GoValue → ResolveInfo → Bool

def GObj.name : GObj → String
  | .mk n _ _ _ _ => n

def GObj.description : GObj → String
  | .mk _ d _ _ _ => d

def GObj.IsTypeOf : GObj → Option IsTypeOfFn
  | .mk _ _ f _ _ => f

def GObj.interfaces : GObj → List GIface
  | .mk _ _ _ l _ => l

def GObj.err : GObj → Option ErrMsg
  | .mk _ _ _ _ e => e

def GIface.name : GIface → String
  | .mk n _ _ _ => n

def GIface.resolveType : GIface → Option ResolveTypeFn
  | .mk _ rt _ _ => rt

def GIface.implementations : GIface → List GObj
  | .mk _ _ impls _ => impls

def GIface.err : GIface → Option ErrMsg
  | .mk _ _ _ e => e

def GObj.GetName (gt : GObj) : String := gt.name

/-- `(*Object).GetDescription` (validator.go:384-386) returns the empty
string unconditionally. -/
def GObj.GetDescription (_ : GObj) : String := ""

def GObj.GetError (gt : GObj) : Option ErrMsg := gt.err

/-- The `resolveType`-missing message of `defineInterfaces`
(validator.go:428-431), formatted with the interface's `String()` and
the implementing object's `String()`. -/
def resolveTypeMissingMsg (ifaceName ttypeName : String) : String :=
  "Interface Type " ++ ifaceName ++ " does not provide a \"resolveType\" function and implementing Type " ++ ttypeName ++ " does not provide a \"isTypeOf\" function. There is no way to resolve this implementing type during execution."

/-- The loop of `defineInterfaces` (validator.go:423-434): a nil
interface pointer or an interface without `ResolveType` returns the
interfaces accepted so far plus the error; the `ResolveType` check never
consults the implementing object's `IsTypeOf`. -/
def defineInterfacesLoop (ttypeName : String) :
    List (Option GIface) → List GIface → List GIface × Option ErrMsg
  | [], acc => (acc, none)
  | none :: _, acc =>
    (acc, some (ttypeName ++ " may only implement Interface types, it cannot implement: <nil>."))
  | some iface :: rest, acc =>
    match iface.resolveType with
    | none => (acc, some (resolveTypeMissingMsg iface.name ttypeName))
    | some _ => defineInterfacesLoop ttypeName rest (acc ++ [iface])

/-- `defineInterfaces` (validator.go:417-437): empty input yields the
empty list with no error. -/
def defineInterfaces (ttypeName : String) (interfaces : List (Option GIface)) :
    List GIface × Option ErrMsg :=
  if interfaces.isEmpty then ([], none)
  else defineInterfacesLoop ttypeName interfaces []

/-- `ObjectConfig.Interfaces` is an `interface{}` holding a thunk, a
slice of (possibly nil) interface pointers, nil, or anything else; the
type switch in `GetInterfaces` (validator.go:397-407) errs on the last
case, carrying the dynamic type's name. -/
inductive InterfacesConfig where
  | thunk (f : Unit → List (Option GIface))
  | list (l : List (Option GIface))
  | nil
  | other (typeName : String)

/-- `ObjectConfig` (validator.go:331-337) restricted to what `NewObject`
reads; the lazy `Fields` map is untouched by construction and elided. -/
structure ObjectConfig where
  name : String
  interfaces : InterfacesConfig := .nil
  isTypeOf : Option IsTypeOfFn := none
  description : String := ""

/-- `NewObject` (validator.go:339-373) with the `GetInterfaces` call
(validator.go:396-412) inlined: empty name, invalid name, then the
interfaces type switch (unknown dynamic type is an error returning a nil
list) and `defineInterfaces`, whose error lands on the object.  The
side effect registering the object into each interface's
`implementations` slice mutates the interfaces, not the returned
object, and is not represented on the result. -/
def NewObject (config : ObjectConfig) : GObj :=
  if config.name = "" then
    .mk "" "" none [] (some "Type must be named.")
  else
    match assertValidName config.name with
    | some e => .mk "" "" none [] (some e)
    | none =>
      match config.interfaces with
      | .other typeName =>
        .mk config.name config.description config.isTypeOf []
          (some ("Unknown Object.Interfaces type: " ++ typeName))
      | .thunk f =>
        let built := defineInterfaces config.name (f ())
        .mk config.name config.description config.isTypeOf built.1 built.2
      | .list l =>
        let built := defineInterfaces config.name l
        .mk config.name config.description config.isTypeOf built.1 built.2
      | .nil =>
        let built := defineInterfaces config.name []
        .mk config.name config.description config.isTypeOf built.1 built.2

/-- `Union` (validator.go:764-774) restricted to the fields the
resolution algorithm reads. -/
structure GUnion where
  name : String
  description : String := ""
  resolveType : Option ResolveTypeFn := none
  types : List GObj := []
  err : Option ErrMsg := none

/-- `(*Interface).GetPossibleTypes` (validator.go:693-695). -/
def GIface.GetPossibleTypes (it : GIface) : List GObj := it.implementations

/-- `(*Union).GetPossibleTypes` (validator.go:824-826). -/
def GUnion.GetPossibleTypes (ut : GUnion) : List GObj := ut.types

/-- The `Abstract` interface (validator.go:144-151), implemented by
`*Interface` and `*Union`. -/
inductive AbstractType where
  | iface (it : GIface)
  | union (ut : GUnion)

def AbstractType.GetPossibleTypes : AbstractType → List GObj
  | .iface it => it.GetPossibleTypes
  | .union ut => ut.GetPossibleTypes

def AbstractType.resolveType : AbstractType → Option ResolveTypeFn
  | .iface it => it.resolveType
  | .union ut => ut.resolveType

/-- The loop of `getTypeOf` (validator.go:730-737): possible types with
no `IsTypeOf` predicate are skipped; the first whose predicate returns
true is returned. -/
def getTypeOfLoop (value : GoValue) (info : ResolveInfo) : List GObj → Option GObj
  | [] => none
  | possibleType :: rest =>
    match possibleType.IsTypeOf with
    | none => getTypeOfLoop value info rest
    | some f => if f value info then some possibleType else getTypeOfLoop value info rest

/-- `getTypeOf` (validator.go:728-739), over the abstract type's
possible types. -/
def getTypeOf (value : GoValue) (info : ResolveInfo) (abstractType : AbstractType) : Option GObj :=
  getTypeOfLoop value info abstractType.GetPossibleTypes

/-- `(*Interface).GetObjectType` (validator.go:715-720). -/
def GIface.GetObjectType (it : GIface) (value : GoValue) (info : ResolveInfo) : Option GObj :=
  match it.resolveType with
  | some rt => rt value info
  | none => getTypeOf value info (.iface it)

/-- `(*Union).GetObjectType` (validator.go:848-853). -/
def GUnion.GetObjectType (ut : GUnion) (value : GoValue) (info : ResolveInfo) : Option GObj :=
  match ut.resolveType with
  | some rt => rt value info
  | none => getTypeOf value info (.union ut)

/-- Dynamic dispatch of `GetObjectType` through the `Abstract`
interface. -/
def AbstractType.GetObjectType : AbstractType → GoValue → ResolveInfo → Option GObj
  | .iface it, value, info => it.GetObjectType value info
  | .union ut, value, info => ut.GetObjectType value info

/-- The boolean outcome of one step of the `getTypeOf` loop for a
candidate object: false when it has no `isTypeOf` predicate (skipped),
else the predicate's verdict. -/
def isTypeOfResult (p : GObj) (value : GoValue) (info : ResolveInfo) : Bool :=
  match p.IsTypeOf with
  | none => false
  | some f => f value info

/-- `(*Interface).GetError` (validator.go:724-726). -/
def GIface.GetError (it : GIface) : Option ErrMsg := it.err

/-- `(*Union).GetError` (validator.go:863-865). -/
def GUnion.GetError (ut : GUnion) : Option ErrMsg := ut.err

/-- `InterfaceConfig` (validator.go:651-656) restricted to what
`NewInterface` validates: the name and the nilable `ResolveType`.  The
lazy `Fields` map is untouched by construction, and the description is
stored on a field outside the restricted `GIface` view; both are
elided. -/
structure InterfaceConfig where
  name : String
  resolveType : Option ResolveTypeFn := none

/-- `NewInterface` (validator.go:659-675): empty name, then
`assertValidName`; on success the restricted fields are stored and
`implementations` is initialized empty. -/
def NewInterface (config : InterfaceConfig) : GIface :=
  if config.name = "" then
    .mk "" none [] (some "Type must be named.")
  else
    match assertValidName config.name with
    | some e => .mk "" none [] (some e)
    | none => .mk config.name config.resolveType [] none

/-- `UnionConfig` (validator.go:775-780); `Types` is a slice of possibly
nil object pointers. -/
structure UnionConfig where
  name : String
  types : List (Option GObj) := []
  resolveType : Option ResolveTypeFn := none
  description : String := ""

/-- The member-missing-resolution message of `NewUnion`
(validator.go:811-814), formatted with the union's `String()` and the
member's `String()`. -/
def unionResolveMissingMsg (unionName typeName : String) : String :=
  "Union Type " ++ unionName ++ " does not provide a \"resolveType\" function and possible Type " ++ typeName ++ " does not provide a \"isTypeOf\" function. There is no way to resolve this possible type during execution."

/-- The member-validation loop of `NewUnion` (validator.go:804-818):
a nil member is an error; when the union has no `ResolveType`, a member
without `IsTypeOf` is an error; otherwise the loop continues. -/
def unionTypesCheck (unionName : String) (resolveType : Option ResolveTypeFn) :
    List (Option GObj) → Option ErrMsg
  | [] => none
  | none :: _ =>
    some (unionName ++ " may only contain Object types, it cannot contain: <nil>.")
  | some ttype :: rest =>
    match resolveType with
    | none =>
      match ttype.IsTypeOf with
      | none => some (unionResolveMissingMsg unionName ttype.name)
      | some _ => unionTypesCheck unionName resolveType rest
    | some _ => unionTypesCheck unionName resolveType rest

/-- `NewUnion` (validator.go:782-823): empty name, invalid name, empty
member list, then the member loop; on success the members are stored
(all non-nil by the loop, so dropping the `Option` via `filterMap` is
the identity embedding of the slice). -/
def NewUnion (config : UnionConfig) : GUnion :=
  if config.name = "" then
    { name := "", description := "", resolveType := none, types := [],
      err := some "Type must be named." }
  else
    match assertValidName config.name with
    | some e =>
      { name := "", description := "", resolveType := none, types := [], err := some e }
    | none =>
      if config.types.isEmpty then
        { name := config.name, description := config.description,
          resolveType := config.resolveType, types := [],
          err := some ("Must provide Array of types for Union " ++ config.name ++ ".") }
      else
        match unionTypesCheck config.name config.resolveType config.types with
        | some e =>
          { name := config.name, description := config.description,
            resolveType := config.resolveType, types := [], err := some e }
        | none =>
          { name := config.name, description := config.description,
            resolveType := config.resolveType,
            types := config.types.filterMap id, err := none }

/-! ## The spec's reading of the name pattern

Stated from the specification's words ("first character `[A-Za-z_]`,
remaining characters `[A-Za-z0-9_]*`, one or more characters total"),
independently of the `regexp` translation above, to compare the two. -/

def specNameStart (c : Char) : Prop :=
  c = '_' ∨ ('a' ≤ c ∧ c ≤ 'z') ∨ ('A' ≤ c ∧ c ≤ 'Z')

instance (c : Char) : Decidable (specNameStart c) := by
  unfold specNameStart
  infer_instance

def specNameTail (c : Char) : Prop :=
  specNameStart c ∨ ('0' ≤ c ∧ c ≤ '9')

instance (c : Char) : Decidable (specNameTail c) := by
  unfold specNameTail
  infer_instance

/-- The spec's description of a valid name: nonempty, first character a
letter or underscore, every remaining character alphanumeric or
underscore. -/
def specValidName (s : String) : Prop :=
  s.data ≠ [] ∧ specNameStart s.data.headI ∧ ∀ d ∈ s.data.tail, specNameTail d

instance (s : String) : Decidable (specValidName s) := by
  unfold specValidName
  infer_instance

/-! ## Concrete instances used by the witnesses below -/

/-- Sample field list for the Object-side field builder: a valid field,
then a field with an invalid name, then another valid field. -/
def objAbortSample : List (String × Option FieldConfig) :=
  [("good1", some { type := some (.scalar "S" none) }),
   ("9bad", some { type := some (.scalar "S" none) }),
   ("good2", some { type := some (.scalar "S" none) })]

/-- The same shape for the InputObject-side field builder. -/
def inputSkipSample : List (String × Option InputObjectFieldConfig) :=
  [("good1", some { type := some (.scalar "S" none) }),
   ("9bad", some { type := some (.scalar "S" none) }),
   ("good2", some { type := some (.scalar "S" none) })]

/-- Input-object field list with a nil field config entry, an
invalid-name entry and a valid entry, with no nil-type entry. -/
def inputWitnessSample : List (String × Option InputObjectFieldConfig) :=
  [("skipped", none),
   ("9bad", some { type := some (.scalar "S" none) }),
   ("ok1", some { type := some (.scalar "S" none) })]

/-- An interface without `ResolveType`. -/
def petIface : GIface := .mk "Pet" none [] none

/-- An object config implementing `petIface` that *does* supply
`IsTypeOf`. -/
def dogConfig : ObjectConfig :=
  { name := "Dog", interfaces := .list [some petIface], isTypeOf := some (fun _ _ => true) }

/-- A possible type with no `isTypeOf` predicate. -/
def dogObj : GObj := .mk "Dog" "" none [] none

/-- A possible type whose `isTypeOf` predicate accepts everything. -/
def catObj : GObj := .mk "Cat" "" (some (fun _ _ => true)) [] none

/-- A union with no `resolveType`, member types `[dogObj, catObj]`. -/
def petUnion : GUnion := { name := "Pet", types := [dogObj, catObj] }

/-- The enum of the source's doc-comment example. -/
def rgbConfig : EnumConfig :=
  { name := "RGB",
    values := [("RED", some { value := .int 0 }),
               ("GREEN", some { value := .int 1 }),
               ("BLUE", some { value := .int 2 })] }

/-! ## Helper lemmas -/

lemma mapLookup_mapInsert_self {κ α : Type} [DecidableEq κ] (m : List (κ × α)) (k : κ) (v : α) :
    mapLookup (mapInsert m k v) k = some v := by
  induction m with
  | nil => simp [mapInsert, mapLookup]
  | cons p rest ih =>
    obtain ⟨k2, v2⟩ := p
    by_cases h : k2 = k
    · subst h
      simp [mapInsert, mapLookup]
    · simp [mapInsert, mapLookup, h, ih]

lemma mapLookup_mapInsert_ne {κ α : Type} [DecidableEq κ] (m : List (κ × α)) (k q : κ) (v : α)
    (h : q ≠ k) : mapLookup (mapInsert m k v) q = mapLookup m q := by
  induction m with
  | nil => simp [mapInsert, mapLookup, h.symm]
  | cons p rest ih =>
    obtain ⟨k2, v2⟩ := p
    by_cases h2 : k2 = k
    · subst h2
      simp [mapInsert, mapLookup, h.symm]
    · by_cases h3 : k2 = q
      · subst h3
        simp [mapInsert, mapLookup, h2]
      · simp [mapInsert, mapLookup, h2, h3, ih]

lemma mapLookup_foldl_insert_skip {κ α : Type} [DecidableEq κ] (key : α → κ)
    (l : List α) (acc : List (κ × α)) (q : κ) (hq : q ∉ l.map key) :
    mapLookup (l.foldl (fun acc v => mapInsert acc (key v) v) acc) q = mapLookup acc q := by
  induction l generalizing acc with
  | nil => rfl
  | cons x rest ih =>
    rw [List.map_cons, List.mem_cons] at hq
    push_neg at hq
    rw [List.foldl_cons, ih _ hq.2, mapLookup_mapInsert_ne _ _ _ _ hq.1]

lemma mapLookup_foldl_insert_mem {κ α : Type} [DecidableEq κ] (key : α → κ)
    (l : List α) (acc : List (κ × α)) (a : α) (ha : a ∈ l) (hnd : (l.map key).Nodup) :
    mapLookup (l.foldl (fun acc v => mapInsert acc (key v) v) acc) (key a) = some a := by
  induction l generalizing acc with
  | nil => cases ha
  | cons x rest ih =>
    rw [List.map_cons, List.nodup_cons] at hnd
    rcases List.mem_cons.mp ha with rfl | hmem
    · rw [List.foldl_cons, mapLookup_foldl_insert_skip key rest _ _ hnd.1]
      exact mapLookup_mapInsert_self _ _ _
    · rw [List.foldl_cons]
      exact ih _ hmem hnd.2

lemma isNameStartChar_iff (c : Char) : isNameStartChar c = true ↔ specNameStart c := by
  simp [isNameStartChar, specNameStart, Bool.or_eq_true, Bool.and_eq_true,
    decide_eq_true_eq, beq_iff_eq, or_assoc]

lemma isNameTailChar_iff (c : Char) : isNameTailChar c = true ↔ specNameTail c := by
  simp [isNameTailChar, specNameTail, isNameStartChar_iff, Bool.or_eq_true,
    Bool.and_eq_true, decide_eq_true_eq]

lemma nameRegexpMatch_iff (s : String) : nameRegexpMatch s = true ↔ specValidName s := by
  unfold nameRegexpMatch specValidName
  rcases h : s.data with _ | ⟨c, cs⟩
  · simp
  · simp only [Bool.and_eq_true, List.all_eq_true, isNameStartChar_iff, isNameTailChar_iff,
      List.headI, List.tail]
    constructor
    · rintro ⟨h1, h2⟩
      exact ⟨List.cons_ne_nil _ _, h1, h2⟩
    · rintro ⟨-, h1, h2⟩
      exact ⟨h1, h2⟩

lemma getTypeOfLoop_skip (value : GoValue) (info : ResolveInfo) (pre rest : List GObj)
    (hpre : ∀ q ∈ pre, isTypeOfResult q value info = false) :
    getTypeOfLoop value info (pre ++ rest) = getTypeOfLoop value info rest := by
  induction pre with
  | nil => rfl
  | cons x xs ih =>
    have hx := hpre x (List.mem_cons_self _ _)
    have hxs := fun q hq => hpre q (List.mem_cons_of_mem _ hq)
    unfold isTypeOfResult at hx
    rw [List.cons_append]
    cases hxf : x.IsTypeOf with
    | none =>
      simp only [getTypeOfLoop, hxf]
      exact ih hxs
    | some f =>
      rw [hxf] at hx
      have hx2 : f value info = false := hx
      simp only [getTypeOfLoop, hxf]
      rw [if_neg (by simp [hx2])]
      exact ih hxs

lemma getTypeOfLoop_none (value : GoValue) (info : ResolveInfo) (l : List GObj)
    (h : ∀ q ∈ l, isTypeOfResult q value info = false) :
    getTypeOfLoop value info l = none := by
  have := getTypeOfLoop_skip value info l [] h
  rw [List.append_nil] at this
  rw [this]
  rfl

lemma abstract_getObjectType_eq_loop (a : AbstractType) (value : GoValue) (info : ResolveInfo)
    (h : a.resolveType = none) :
    a.GetObjectType value info = getTypeOfLoop value info a.GetPossibleTypes := by
  cases a with
  | iface it =>
    have h2 : it.resolveType = none := h
    simp only [AbstractType.GetObjectType, GIface.GetObjectType, h2, getTypeOf]
  | union ut =>
    have h2 : ut.resolveType = none := h
    simp only [AbstractType.GetObjectType, GUnion.GetObjectType, h2, getTypeOf]

lemma defineInterfacesLoop_finds_missing (ttypeName : String) (l : List GIface)
    (hbad : ∃ i ∈ l, i.resolveType = none) (acc : List GIface) :
    ∃ i ∈ l, i.resolveType = none ∧
      (defineInterfacesLoop ttypeName (l.map some) acc).2 =
        some (resolveTypeMissingMsg i.name ttypeName) := by
  induction l generalizing acc with
  | nil => simp at hbad
  | cons x rest ih =>
    cases hx : x.resolveType with
    | none =>
      refine ⟨x, List.mem_cons_self _ _, hx, ?_⟩
      simp only [List.map_cons, defineInterfacesLoop, hx]
    | some rt =>
      have hbad2 : ∃ i ∈ rest, i.resolveType = none := by
        rcases hbad with ⟨i, hi, hrt⟩
        rcases List.mem_cons.mp hi with rfl | hmem
        · rw [hx] at hrt
          cases hrt
        · exact ⟨i, hmem, hrt⟩
      obtain ⟨i, hi, hrt, heq⟩ := ih hbad2 (acc ++ [x])
      refine ⟨i, List.mem_cons_of_mem _ hi, hrt, ?_⟩
      simp only [List.map_cons, defineInterfacesLoop, hx]
      exact heq

lemma inputFieldLoop_no_abort (gtStr : String)
    (fs : List (String × Option InputObjectFieldConfig))
    (h : ∀ k fc, (k, some fc) ∈ fs → assertValidName k = none → fc.type ≠ none)
    (acc : List (String × InputObjectField)) :
    (inputFieldLoop gtStr fs acc).2 = none := by
  induction fs generalizing acc with
  | nil => rfl
  | cons e rest ih =>
    obtain ⟨k, fc⟩ := e
    have hrest : ∀ k fc, (k, some fc) ∈ rest → assertValidName k = none → fc.type ≠ none :=
      fun k fc hm hv => h k fc (List.mem_cons_of_mem _ hm) hv
    cases fc with
    | none =>
      simp only [inputFieldLoop]
      exact ih hrest acc
    | some fc =>
      cases hv : assertValidName k with
      | some e2 =>
        simp only [inputFieldLoop, hv]
        exact ih hrest acc
      | none =>
        cases hty : fc.type with
        | none => exact absurd hty (h k fc (List.mem_cons_self _ _) hv)
        | some t =>
          simp only [inputFieldLoop, hv, hty]
          exact ih hrest _

lemma inputFieldLoop_lookup_skip (gtStr : String)
    (fs : List (String × Option InputObjectFieldConfig))
    (acc : List (String × InputObjectField)) (q : String)
    (hq : q ∉ fs.map Prod.fst) :
    mapLookup (inputFieldLoop gtStr fs acc).1 q = mapLookup acc q := by
  induction fs generalizing acc with
  | nil => rfl
  | cons e rest ih =>
    obtain ⟨k, fc⟩ := e
    rw [List.map_cons, List.mem_cons] at hq
    push_neg at hq
    cases fc with
    | none =>
      simp only [inputFieldLoop]
      exact ih acc hq.2
    | some fc =>
      cases hv : assertValidName k with
      | some e2 =>
        simp only [inputFieldLoop, hv]
        exact ih acc hq.2
      | none =>
        cases hty : fc.type with
        | none => simp only [inputFieldLoop, hv, hty]
        | some t =>
          simp only [inputFieldLoop, hv, hty]
          rw [ih _ hq.2, mapLookup_mapInsert_ne _ _ _ _ hq.1]

lemma inputFieldLoop_lookup_mem (gtStr : String)
    (fs : List (String × Option InputObjectFieldConfig))
    (k : String) (fc : InputObjectFieldConfig) (t : GType)
    (hnd : (fs.map Prod.fst).Nodup)
    (h : ∀ k2 fc2, (k2, some fc2) ∈ fs → assertValidName k2 = none → fc2.type ≠ none)
    (hmem : (k, some fc) ∈ fs) (hv : assertValidName k = none) (ht : fc.type = some t)
    (acc : List (String × InputObjectField)) :
    mapLookup (inputFieldLoop gtStr fs acc).1 k =
      some { name := k, type := fc.type, description := fc.description,
             defaultValue := fc.defaultValue } := by
  induction fs generalizing acc with
  | nil => cases hmem
  | cons e rest ih =>
    obtain ⟨k2, fc2⟩ := e
    rw [List.map_cons, List.nodup_cons] at hnd
    have hrest : ∀ k2 fc2, (k2, some fc2) ∈ rest → assertValidName k2 = none → fc2.type ≠ none :=
      fun a b hm hvn => h a b (List.mem_cons_of_mem _ hm) hvn
    rcases List.mem_cons.mp hmem with heq | hmem2
    · have hk : k2 = k := (Prod.mk.injEq _ _ _ _ ▸ heq.symm).1
      have hfc : fc2 = some fc := (Prod.mk.injEq _ _ _ _ ▸ heq.symm).2
      subst hk
      subst hfc
      simp only [inputFieldLoop, hv, ht]
      rw [inputFieldLoop_lookup_skip _ _ _ _ hnd.1]
      exact mapLookup_mapInsert_self _ _ _
    · cases fc2 with
      | none =>
        simp only [inputFieldLoop]
        exact ih hnd.2 hrest hmem2 acc
      | some fc2 =>
        cases hv2 : assertValidName k2 with
        | some e2 =>
          simp only [inputFieldLoop, hv2]
          exact ih hnd.2 hrest hmem2 acc
        | none =>
          cases hty2 : fc2.type with
          | none => exact absurd hty2 (h k2 fc2 (List.mem_cons_self _ _) hv2)
          | some t2 =>
            simp only [inputFieldLoop, hv2, hty2]
            exact ih hnd.2 hrest hmem2 _

/-! ## Claim theorems -/

/-- Claim C1 (code bug): the claim states that a `ScalarConfig` with a
valid name, a non-nil `Serialize` and both parsers jointly absent yields
`GetError() = nil`.  The code instead tests
`config.ParseValue == nil || config.ParseLiteral == nil`
(validator.go:238), which also fires when both are nil, so the
constructor records the "must provide both" error even for the
output-only scalar of the source's own doc-comment example
(validator.go:188-195).  This theorem evaluates the embedded code at
such a failing input: for every serialize function and description, the
joint absence of the parsers is rejected. -/
theorem newScalar_rejects_jointly_absent_parsers
    (serializeFn : GoValue → GoValue) (desc : String) :
    (NewScalar { name := "Odd", description := desc, serialize := some serializeFn,
                 parseValue := none, parseLiteral := none }).GetError =
      some "Odd must provide both \"parseValue\" and \"parseLiteral\" functions." := rfl

/-- Claim C6: for every finite nesting of `List` / `NonNull` wrappers
around a non-wrapper type, `GetNamed` returns the innermost non-wrapper
type; termination is inherent in the total Lean definition, which
mirrors the Go loop descending through `OfType`. -/
theorem getNamed_strips_wrappers (ws : List Wrapper) (t : GType)
    (h : t.isWrapper = false) :
    GetNamed (some (applyWrappers ws t)) = some t := by
  induction ws with
  | nil =>
    cases t with
    | list o e => simp [GType.isWrapper] at h
    | nonNull o e => simp [GType.isWrapper] at h
    | scalar n e => simp [applyWrappers, GetNamed]
    | object n e => simp [applyWrappers, GetNamed]
    | iface n e => simp [applyWrappers, GetNamed]
    | union n e => simp [applyWrappers, GetNamed]
    | enum n e => simp [applyWrappers, GetNamed]
    | inputObject n e => simp [applyWrappers, GetNamed]
  | cons w ws ih =>
    cases w with
    | list =>
      simp only [applyWrappers, GetNamed]
      exact ih
    | nonNull =>
      simp only [applyWrappers, GetNamed]
      exact ih

/-- Witness for C6 at the spec's example depth:
`NonNull(List(NonNull(Scalar)))` resolves to the scalar. -/
theorem getNamed_strips_wrappers_witness :
    GetNamed (some (applyWrappers [.nonNull, .list, .nonNull] (.scalar "Odd" none))) =
      some (.scalar "Odd" none) :=
  getNamed_strips_wrappers [.nonNull, .list, .nonNull] (.scalar "Odd" none) rfl

/-- Claim C7: `assertValidName(name)` returns nil exactly when the name
fully matches `^[_a-zA-Z][_a-zA-Z0-9]*$` (read as the spec words it:
nonempty, first character letter or underscore, rest alphanumeric or
underscore), and on every violating string it returns the descriptive
error embedding the offending name; it is a total function (no panic). -/
theorem assertValidName_iff_pattern (name : String) :
    (assertValidName name = none ↔ specValidName name) ∧
    (¬ specValidName name →
      assertValidName name =
        some ("Names must match /^[_a-zA-Z][_a-zA-Z0-9]*$/ but \"" ++ name ++ "\" does not.")) := by
  have hiff := nameRegexpMatch_iff name
  constructor
  · rw [← hiff]
    unfold assertValidName
    cases hnm : nameRegexpMatch name <;> simp [hnm]
  · intro hn
    have hb : nameRegexpMatch name = false := by
      cases hnm : nameRegexpMatch name
      · rfl
      · exact absurd (hiff.mp hnm) hn
    simp [assertValidName, hb]

/-- Witness for C7: a valid identifier is accepted; a leading-digit name
is rejected with the error naming it. -/
theorem assertValidName_iff_pattern_witness :
    assertValidName "_ok9" = none ∧
    assertValidName "9bad" =
      some ("Names must match /^[_a-zA-Z][_a-zA-Z0-9]*$/ but \"" ++ "9bad" ++ "\" does not.") :=
  ⟨(assertValidName_iff_pattern "_ok9").1.mpr (by decide),
   (assertValidName_iff_pattern "9bad").2 (by decide)⟩

/-- Claim C8: `NewNonNull(NewNonNull(T))` always records a construction
error (over every `T`, including nil, since `NewNonNull` always returns
a `*NonNull` value), and `NewNonNull(nil)` and `NewList(nil)` each
record one. -/
theorem wrapper_constructor_failures (t : Option GType) :
    (NewNonNull (some (NewNonNull t))).GetError ≠ none ∧
    (NewNonNull none).GetError ≠ none ∧
    (NewList none).GetError ≠ none := by
  refine ⟨?_, by simp [NewNonNull, GType.GetError], by simp [NewList, GType.GetError]⟩
  rcases t with _ | t
  · simp [NewNonNull, GType.GetError]
  · cases t <;> simp [NewNonNull, GType.GetError]

/-- Claim C3: constructing an Object over an interfaces list (of actual
interface values) containing one with nil `ResolveType` records on the
object an error formatted with both the offending interface's name and
the object's name (`resolveTypeMissingMsg`); the object's own `IsTypeOf`
is part of `config` and is universally quantified here, so the error is
raised whether or not it is supplied — the check never consults it. -/
theorem newObject_interface_without_resolveType
    (config : ObjectConfig) (l : List GIface)
    (hname : assertValidName config.name = none)
    (hifs : config.interfaces = .list (l.map some))
    (hbad : ∃ i ∈ l, i.resolveType = none) :
    ∃ i ∈ l, i.resolveType = none ∧
      (NewObject config).GetError = some (resolveTypeMissingMsg i.name config.name) := by
  have hne : config.name ≠ "" := by
    intro h
    rw [h] at hname
    simp [assertValidName, nameRegexpMatch] at hname
  have hlne : (l.map some).isEmpty = false := by
    rcases hbad with ⟨i, hi, -⟩
    cases l
    · cases hi
    · rfl
  obtain ⟨i, hi, hrt, heq⟩ := defineInterfacesLoop_finds_missing config.name l hbad []
  refine ⟨i, hi, hrt, ?_⟩
  simp only [NewObject, if_neg hne, hname, hifs, defineInterfaces, hlne,
    Bool.false_eq_true, if_false, GObj.GetError, GObj.err]
  exact heq

/-- Witness for C3: a `Dog` object config supplying `IsTypeOf`,
implementing a `Pet` interface with no `ResolveType`, errs naming both. -/
theorem newObject_interface_without_resolveType_witness :
    (NewObject dogConfig).GetError = some (resolveTypeMissingMsg "Pet" "Dog") := by
  obtain ⟨i, hi, -, heq⟩ :=
    newObject_interface_without_resolveType dogConfig [petIface] rfl rfl
      ⟨petIface, List.mem_singleton.mpr rfl, rfl⟩
  rw [List.mem_singleton] at hi
  subst hi
  exact heq

/-- Claim C4: for a Union or Interface with no `ResolveType`,
`GetObjectType` scans the possible types in their defined order —
candidates without an `isTypeOf` predicate contribute `false`
(`isTypeOfResult`), i.e. are skipped — returning the first candidate
whose predicate accepts the value, and nil when every candidate is
skipped or rejects. -/
theorem getObjectType_first_isTypeOf_match
    (value : GoValue) (info : ResolveInfo) (a : AbstractType)
    (h : a.resolveType = none) :
    (∀ pre p post, a.GetPossibleTypes = pre ++ p :: post →
        (∀ q ∈ pre, isTypeOfResult q value info = false) →
        isTypeOfResult p value info = true →
        a.GetObjectType value info = some p) ∧
    ((∀ p ∈ a.GetPossibleTypes, isTypeOfResult p value info = false) →
        a.GetObjectType value info = none) := by
  constructor
  · intro pre p post hsplit hpre hp
    rw [abstract_getObjectType_eq_loop a value info h, hsplit,
      getTypeOfLoop_skip value info pre _ hpre]
    unfold isTypeOfResult at hp
    cases hptf : p.IsTypeOf with
    | none =>
      rw [hptf] at hp
      cases hp
    | some f =>
      rw [hptf] at hp
      have hp2 : f value info = true := hp
      simp only [getTypeOfLoop, hptf]
      rw [if_pos hp2]
  · intro hall
    rw [abstract_getObjectType_eq_loop a value info h]
    exact getTypeOfLoop_none value info _ hall

/-- Witness for C4: on the union `[dogObj, catObj]` with no
`resolveType`, `dogObj` (no `isTypeOf`) is skipped and `catObj` (whose
predicate accepts) is returned. -/
theorem getObjectType_first_isTypeOf_match_witness :
    (AbstractType.union petUnion).GetObjectType (.str "x") {} = some catObj :=
  (getObjectType_first_isTypeOf_match (.str "x") {} (.union petUnion) rfl).1
    [dogObj] catObj [] rfl
    (by
      intro q hq
      rw [List.mem_singleton] at hq
      subst hq
      rfl)
    rfl

/-- Claim C10: `(*Object).GetDescription` and `(*Enum).GetDescription`
return the empty string for every instance, even though the constructors
do store the configured description on the value (shown here for every
config with a valid name); by contrast `Scalar` and `InputObject`
accessors return the stored description. -/
theorem object_enum_getDescription_empty :
    (∀ gt : GObj, gt.GetDescription = "") ∧
    (∀ gt : Enum, gt.GetDescription = "") ∧
    (∀ config : ObjectConfig, assertValidName config.name = none →
        (NewObject config).description = config.description) ∧
    (∀ config : EnumConfig, assertValidName config.name = none →
        (NewEnum config).description = config.description) ∧
    (∀ st : Scalar, st.GetDescription = st.description) ∧
    (∀ gt : InputObject, gt.GetDescription = gt.description) := by
  refine ⟨fun _ => rfl, fun _ => rfl, ?_, ?_, fun _ => rfl, fun _ => rfl⟩
  · intro config hname
    have hne : config.name ≠ "" := by
      intro h
      rw [h] at hname
      simp [assertValidName, nameRegexpMatch] at hname
    unfold NewObject
    rw [if_neg hne, hname]
    cases config.interfaces <;> rfl
  · intro config hname
    unfold NewEnum
    rw [hname]

/-- Witness for C10: a configured non-empty description is stored yet
not returned, for both Object and Enum. -/
theorem object_enum_getDescription_empty_witness :
    (NewObject { name := "Person", description := "people" }).GetDescription = "" ∧
    (NewObject { name := "Person", description := "people" }).description = "people" ∧
    (NewEnum { name := "RGB", description := "colors" }).GetDescription = "" ∧
    (NewEnum { name := "RGB", description := "colors" }).description = "colors" := by
  obtain ⟨h1, h2, h3, h4, -, -⟩ := object_enum_getDescription_empty
  exact ⟨h1 _, h3 _ (by decide), h2 _, h4 _ (by decide)⟩

/-- Claim C5: on a validly constructed Enum whose declared value names
are pairwise distinct and whose internal values are pairwise distinct,
each declared value round-trips: `ParseValue(Serialize(internal)) =
internal` and `Serialize(ParseValue(name)) = name` (the name travelling
as the Go string value it is). -/
theorem enum_roundtrip (config : EnumConfig)
    (_hok : (NewEnum config).GetError = none)
    (hnames : ((NewEnum config).values.map (fun v => v.name)).Nodup)
    (hvals : ((NewEnum config).values.map (fun v => v.value)).Nodup)
    (v : EnumValueDefinition) (hv : v ∈ (NewEnum config).values) :
    (NewEnum config).ParseValue ((NewEnum config).Serialize v.value) = v.value ∧
    (NewEnum config).Serialize ((NewEnum config).ParseValue (.str v.name)) = .str v.name := by
  have hserLookup : mapLookup (NewEnum config).getValueLookup v.value = some v := by
    unfold Enum.getValueLookup
    exact mapLookup_foldl_insert_mem (fun w => w.value) (NewEnum config).GetValues [] v hv hvals
  have hnameLookup : mapLookup (NewEnum config).getNameLookup v.name = some v := by
    unfold Enum.getNameLookup
    exact mapLookup_foldl_insert_mem (fun w => w.name) (NewEnum config).GetValues [] v hv hnames
  have hser : (NewEnum config).Serialize v.value = .str v.name := by
    unfold Enum.Serialize
    rw [hserLookup]
  have hpar : (NewEnum config).ParseValue (.str v.name) = v.value := by
    unfold Enum.ParseValue
    simp only [hnameLookup]
  refine ⟨?_, ?_⟩
  · rw [hser, hpar]
  · rw [hpar, hser]

/-- Witness for C5 on the source's `RGB` example: `GREEN`/`1`
round-trips both ways. -/
theorem enum_roundtrip_witness :
    (NewEnum rgbConfig).ParseValue ((NewEnum rgbConfig).Serialize (.int 1)) = .int 1 ∧
    (NewEnum rgbConfig).Serialize ((NewEnum rgbConfig).ParseValue (.str "GREEN")) =
      .str "GREEN" := by
  have hvals2 : (NewEnum rgbConfig).values =
      [{ name := "BLUE", value := .int 2 }, { name := "GREEN", value := .int 1 },
       { name := "RED", value := .int 0 }] := rfl
  exact enum_roundtrip rgbConfig rfl
    (by rw [hvals2]; simp)
    (by rw [hvals2]; simp)
    { name := "GREEN", value := .int 1 }
    (by rw [hvals2]; simp)

/-- Counterexample to claim C2 as stated: a field map whose first entry
has a valid name (`aField`) but a nil type, followed by a fully valid
entry (`bField`).  The claim says every invalid entry is skipped
individually and every valid field survives; the code instead *aborts*
at the nil type (validator.go:1180-1183), records the error and drops
the valid `bField` from the result. -/
theorem inputObject_nil_type_aborts_cex :
    assertValidName "bField" = none ∧
    (NewInputObject { name := "Geo", fields := (InputFieldsConfig.fieldMap
        [("aField", some { type := none }),
         ("bField", some { type := some (.scalar "String" none) })]) }).GetError =
      some "Geo.aField field type must be Input Type but got: <nil>." ∧
    mapLookup (NewInputObject { name := "Geo", fields := (InputFieldsConfig.fieldMap
        [("aField", some { type := none }),
         ("bField", some { type := some (.scalar "String" none) })]) }).fields "bField" =
      none :=
  ⟨rfl, rfl, rfl⟩

/-- Claim C2 amended: in `NewInputObject`'s field builder, entries with
a nil field config or an invalid field name are skipped individually and
every valid field survives, *provided* no valid-named entry has a nil
type — such an entry aborts the map (recording the error and keeping
only the fields already built), unlike the claim's reading.  The
Object-side builder skips nil field configs but aborts the whole map on
the first field with an invalid name, nil type or erroneous type — shown
on the shared sample: it drops `good2` after the invalid name `9bad`
with an error, where the input-object builder keeps `good1` and `good2`
with no error. -/
theorem inputObject_skips_vs_object_aborts :
    (∀ (name : String) (fs : List (String × Option InputObjectFieldConfig)),
      name ≠ "" → fs ≠ [] →
      (fs.map Prod.fst).Nodup →
      (∀ k fc, (k, some fc) ∈ fs → assertValidName k = none → fc.type ≠ none) →
      (NewInputObject { name := name, fields := .fieldMap fs }).GetError = none ∧
      ∀ k fc t, (k, some fc) ∈ fs → assertValidName k = none → fc.type = some t →
        mapLookup (NewInputObject { name := name, fields := .fieldMap fs }).fields k =
          some { name := k, type := fc.type, description := fc.description,
                 defaultValue := fc.defaultValue }) ∧
    ((defineFieldMap "Obj" objAbortSample).2 =
        some ("Names must match /^[_a-zA-Z][_a-zA-Z0-9]*$/ but \"9bad\" does not.") ∧
      mapLookup (defineFieldMap "Obj" objAbortSample).1 "good2" = none) ∧
    ((inputObjectDefineFieldMap "Obj" inputSkipSample).2 = none ∧
      mapLookup (inputObjectDefineFieldMap "Obj" inputSkipSample).1 "good2" =
        some { name := "good2", type := some (.scalar "S" none) }) := by
  refine ⟨?_, ⟨rfl, rfl⟩, ⟨rfl, rfl⟩⟩
  intro name fs hname hfs hnd hnoabort
  have hdrop : NewInputObject { name := name, fields := .fieldMap fs } =
      { name := name, description := "",
        fields := (inputObjectDefineFieldMap name fs).1,
        err := (inputObjectDefineFieldMap name fs).2 } := by
    unfold NewInputObject
    rw [if_neg hname]
    rfl
  have hfsne : fs.isEmpty = false := by
    cases fs
    · exact absurd rfl hfs
    · rfl
  have hloop : inputObjectDefineFieldMap name fs = inputFieldLoop name fs [] := by
    unfold inputObjectDefineFieldMap
    rw [hfsne]
    simp
  constructor
  · rw [hdrop]
    show (inputObjectDefineFieldMap name fs).2 = none
    rw [hloop]
    exact inputFieldLoop_no_abort name fs hnoabort []
  · intro k fc t hmem hv ht
    rw [hdrop]
    show mapLookup (inputObjectDefineFieldMap name fs).1 k = _
    rw [hloop]
    exact inputFieldLoop_lookup_mem name fs k fc t hnd hnoabort hmem hv ht []

/-- Witness for the amended C2, on `inputWitnessSample` (a nil config
entry and an invalid-name entry alongside a valid `ok1`): no error is
recorded and `ok1` survives. -/
theorem inputObject_skips_vs_object_aborts_witness :
    (NewInputObject { name := "Geo", fields := .fieldMap inputWitnessSample }).GetError = none ∧
    mapLookup
      (NewInputObject
        { name := "Geo", fields := InputFieldsConfig.fieldMap inputWitnessSample }).fields
      "ok1" = some { name := "ok1", type := some (.scalar "S" none) } := by
  have hnoabort : ∀ k fc, (k, some fc) ∈ inputWitnessSample →
      assertValidName k = none → fc.type ≠ none := by
    intro k fc hmem hv
    unfold inputWitnessSample at hmem
    rcases List.mem_cons.mp hmem with heq | hmem2
    · injection heq with h1 h2
      exact Option.noConfusion h2
    · rcases List.mem_cons.mp hmem2 with heq | hmem3
      · injection heq with h1 h2
        injection h2 with h3
        subst h3
        simp
      · rcases List.mem_cons.mp hmem3 with heq | hmem4
        · injection heq with h1 h2
          injection h2 with h3
          subst h3
          simp
        · cases hmem4
  obtain ⟨h1, h2⟩ := inputObject_skips_vs_object_aborts.1 "Geo" inputWitnessSample
    (by decide) (by intro h; cases h) (by decide) hnoabort
  exact ⟨h1, h2 "ok1" { type := some (.scalar "S" none) } (.scalar "S" none)
    (by
      unfold inputWitnessSample
      exact List.mem_cons_of_mem _ (List.mem_cons_of_mem _ (List.mem_cons_self _ _)))
    rfl rfl⟩

/-- Counterexample to claim C9 as stated: `NewInputObject` with the
non-empty but pattern-violating name `123bad` and a valid field map
returns `GetError() = nil` — the constructor only checks for the empty
name (validator.go:1145-1148) and never calls `assertValidName`. -/
theorem newInputObject_invalid_name_cex :
    assertValidName "123bad" ≠ none ∧
    (NewInputObject
      { name := "123bad",
        fields := (InputFieldsConfig.fieldMap
          [("f", some { type := some (.scalar "String" none) })]) }).GetError = none :=
  ⟨by decide, rfl⟩

/-- Claim C9 amended: `NewScalar`, `NewObject`, `NewInterface`,
`NewUnion` and `NewEnum` record a construction error local to the type
for every name violating the identifier pattern, but `NewInputObject`
checks only that the name is non-empty: for any non-empty name (valid
or not) its recorded error is exactly the field-map builder's error, so
an invalid name alone leaves `GetError()` nil. -/
theorem name_validation_per_constructor :
    (∀ config : ScalarConfig, assertValidName config.name ≠ none →
      (NewScalar config).GetError ≠ none) ∧
    (∀ config : ObjectConfig, assertValidName config.name ≠ none →
      (NewObject config).GetError ≠ none) ∧
    (∀ config : InterfaceConfig, assertValidName config.name ≠ none →
      (NewInterface config).GetError ≠ none) ∧
    (∀ config : UnionConfig, assertValidName config.name ≠ none →
      (NewUnion config).GetError ≠ none) ∧
    (∀ config : EnumConfig, assertValidName config.name ≠ none →
      (NewEnum config).GetError ≠ none) ∧
    (∀ config : InputObjectConfig, config.name ≠ "" →
      (NewInputObject config).GetError =
        (inputObjectDefineFieldMap config.name config.fieldList).2) := by
  refine ⟨?_, ?_, ?_, ?_, ?_, ?_⟩
  · intro config h
    unfold NewScalar
    by_cases hne : config.name = ""
    · rw [if_pos hne]
      simp [Scalar.GetError]
    · rw [if_neg hne]
      cases hv : assertValidName config.name with
      | none => exact absurd hv h
      | some e => simp [Scalar.GetError]
  · intro config h
    unfold NewObject
    by_cases hne : config.name = ""
    · rw [if_pos hne]
      simp [GObj.GetError, GObj.err]
    · rw [if_neg hne]
      cases hv : assertValidName config.name with
      | none => exact absurd hv h
      | some e => simp [GObj.GetError, GObj.err]
  · intro config h
    unfold NewInterface
    by_cases hne : config.name = ""
    · rw [if_pos hne]
      simp [GIface.GetError, GIface.err]
    · rw [if_neg hne]
      cases hv : assertValidName config.name with
      | none => exact absurd hv h
      | some e => simp [GIface.GetError, GIface.err]
  · intro config h
    unfold NewUnion
    by_cases hne : config.name = ""
    · rw [if_pos hne]
      simp [GUnion.GetError]
    · rw [if_neg hne]
      cases hv : assertValidName config.name with
      | none => exact absurd hv h
      | some e => simp [GUnion.GetError]
  · intro config h
    unfold NewEnum
    cases hv : assertValidName config.name with
    | none => exact absurd hv h
    | some e => simp [Enum.GetError]
  · intro config h
    unfold NewInputObject
    rw [if_neg h]
    rfl

/-- Witness for the amended C9 at the invalid name `123bad`: the five
validating constructors err; `NewInputObject` carries exactly the field
builder's (absent) error. -/
theorem name_validation_per_constructor_witness :
    (NewScalar { name := "123bad" }).GetError ≠ none ∧
    (NewObject { name := "123bad" }).GetError ≠ none ∧
    (NewInterface { name := "123bad" }).GetError ≠ none ∧
    (NewUnion { name := "123bad" }).GetError ≠ none ∧
    (NewEnum { name := "123bad" }).GetError ≠ none ∧
    (NewInputObject
      { name := "123bad",
        fields := (InputFieldsConfig.fieldMap
          [("f", some { type := some (.scalar "String" none) })]) }).GetError =
      (inputObjectDefineFieldMap "123bad"
        [("f", some { type := some (.scalar "String" none) })]).2 := by
  obtain ⟨h1, h2, h3, h4, h5, h6⟩ := name_validation_per_constructor
  exact ⟨h1 _ (by decide), h2 _ (by decide), h3 _ (by decide), h4 _ (by decide),
    h5 _ (by decide), h6 _ (by decide)⟩

end GoGraphQL
